import Mathlib

/- Verification of the feature-aggregation, difficulty-scoring and risk-tier
   pipeline of the AI Learning Intelligence Tool (src/app/main.py,
   src/scripts/train_models.py).  Numeric values are idealised as exact
   rationals; the standard deviation, the one irrational quantity the
   pipeline stores, is represented exactly as a real square root.  A missing
   (NaN) cell of a parsed CSV is modelled as none. -/

/-- Mean of a list of rationals; none on the empty list, mirroring the NaN
    that the pandas mean returns for a group with no non-null values. -/
def pdMean (l : List ℚ) : Option ℚ :=
  if l.length = 0 then none else some (l.sum / l.length)

/-- Minimum of a list of rationals; none on the empty list. -/
def pdMin : List ℚ → Option ℚ
  | [] => none
  | x :: xs => some (xs.foldl min x)

/-- Maximum of a list of rationals; none on the empty list. -/
def pdMax : List ℚ → Option ℚ
  | [] => none
  | x :: xs => some (xs.foldl max x)

/-- Sample variance with the n - 1 denominator used by the pandas std
    (ddof = 1); none when fewer than two values are available, mirroring the
    NaN pandas returns there. -/
def pdVar (l : List ℚ) : Option ℚ :=
  if l.length < 2 then none
  else some (((l.map (fun x => (x - l.sum / l.length) ^ 2)).sum) / ((l.length : ℚ) - 1))

/-- Sample standard deviation: the square root of pdVar. -/
noncomputable def pdStd (l : List ℚ) : Option ℝ :=
  (pdVar l).map (fun (v : ℚ) => Real.sqrt (v : ℝ))

/-- One parsed row of an inference batch: the four columns that
    preprocess_student_data in src/app/main.py reads.  A none value stands
    for a NaN cell of the parsed CSV. -/
structure Row where
  student_id : ℚ
  chapter_id : Option ℚ
  time_spent : Option ℚ
  score : Option ℚ
deriving DecidableEq

/-- One row of the training table student_data.csv as read by
    src/scripts/train_models.py: the inference columns plus course_id and the
    completed target column produced by generate_data.py. -/
structure Event where
  student_id : ℚ
  course_id : String
  chapter_id : Option ℚ
  time_spent : Option ℚ
  score : Option ℚ
  completed : ℚ
deriving DecidableEq

/-- Forgets the training-only columns, giving the row shape the inference
    aggregation reads. -/
def Event.toRow (e : Event) : Row :=
  { student_id := e.student_id, chapter_id := e.chapter_id,
    time_spent := e.time_spent, score := e.score }

/-- Non-null scores of a list of rows, in order: the pandas aggregations skip
    NaN values. -/
def presentScores (g : List Row) : List ℚ := g.filterMap Row.score

/-- Non-null time_spent values of a list of rows, in order. -/
def presentTimes (g : List Row) : List ℚ := g.filterMap Row.time_spent

/-- Non-null chapter_id values of a list of rows, in order. -/
def presentChapters (g : List Row) : List ℚ := g.filterMap Row.chapter_id

/-- The student-level feature vector with the flattened column names both
    aggregation sites produce; the field order is the fixed column order
    score_mean, score_min, score_max, score_std, time_spent_sum,
    time_spent_mean, time_spent_std, chapter_id_max. -/
structure StudentFeatures where
  score_mean : ℚ
  score_min : ℚ
  score_max : ℚ
  score_std : ℝ
  time_spent_sum : ℚ
  time_spent_mean : ℚ
  time_spent_std : ℝ
  chapter_id_max : ℚ

/-- The aggregation applied to one student group by preprocess_student_data
    in src/app/main.py: mean, min, max and sample std of score, sum, mean and
    sample std of time_spent, max of chapter_id, then fillna(0) on every
    column.  The pandas sum skips NaN and is 0 on an all-null column. -/
noncomputable def aggRow (g : List Row) : StudentFeatures :=
  { score_mean := (pdMean (presentScores g)).getD 0,
    score_min := (pdMin (presentScores g)).getD 0,
    score_max := (pdMax (presentScores g)).getD 0,
    score_std := (pdStd (presentScores g)).getD 0,
    time_spent_sum := (presentTimes g).sum,
    time_spent_mean := (pdMean (presentTimes g)).getD 0,
    time_spent_std := (pdStd (presentTimes g)).getD 0,
    chapter_id_max := (pdMax (presentChapters g)).getD 0 }

/-- Distinct group keys in the ascending order the pandas groupby emits. -/
def groupKeys (ids : List ℚ) : List ℚ :=
  (ids.dedup).insertionSort (· ≤ ·)

/-- preprocess_student_data from src/app/main.py: group the rows by
    student_id, aggregate each group with aggRow; one output row per distinct
    student id, in ascending key order. -/
noncomputable def preprocess_student_data (l : List Row) : List (ℚ × StudentFeatures) :=
  (groupKeys (l.map Row.student_id)).map
    (fun s => (s, aggRow (l.filter (fun r => r.student_id = s))))

/-- The training-time student-level aggregation of train_models in
    src/scripts/train_models.py: the same groupby and agg dictionary as the
    inference path plus the completed target taken with first, flattened
    names, fillna(0).  The last component of each output entry is the
    completed column that train_models later drops to form X. -/
noncomputable def trainStudentFeatures (l : List Event) : List (ℚ × StudentFeatures × ℚ) :=
  (groupKeys (l.map Event.student_id)).map
    (fun s =>
      let g := l.filter (fun e => e.student_id = s)
      (s,
        { score_mean := (pdMean (g.filterMap Event.score)).getD 0,
          score_min := (pdMin (g.filterMap Event.score)).getD 0,
          score_max := (pdMax (g.filterMap Event.score)).getD 0,
          score_std := (pdStd (g.filterMap Event.score)).getD 0,
          time_spent_sum := (g.filterMap Event.time_spent).sum,
          time_spent_mean := (pdMean (g.filterMap Event.time_spent)).getD 0,
          time_spent_std := (pdStd (g.filterMap Event.time_spent)).getD 0,
          chapter_id_max := (pdMax (g.filterMap Event.chapter_id)).getD 0 },
        (g.map Event.completed).headD 0))

/-- The feature vector as the ordered row of eight numbers fed to the scaler;
    the order is the shared fixed column order. -/
noncomputable def featureRow (v : StudentFeatures) : List ℝ :=
  [(v.score_mean : ℝ), (v.score_min : ℝ), (v.score_max : ℝ), v.score_std,
   (v.time_spent_sum : ℝ), (v.time_spent_mean : ℝ), v.time_spent_std,
   (v.chapter_id_max : ℝ)]

/-- The risk tier logic of predict_completion in src/app/main.py: the level
    starts at Low, becomes High below 0.3, Medium below 0.7. -/
def risk_level (p : ℚ) : String :=
  if p < 3/10 then "High" else if p < 7/10 then "Medium" else "Low"

/-- Rounding of the completion probability to two decimals, idealising the
    Python round(prob, 2) call on exact rationals. -/
def round2 (q : ℚ) : ℚ := (round (q * 100) : ℤ) / 100

/-- One entry of the predictions array the predict endpoint returns. -/
structure PredictionResult where
  student_id : ℚ
  completion_probability : ℚ
  predicted_completion : Bool
  risk_level : String
deriving DecidableEq

/-- The happy path of the predict endpoint in src/app/main.py after the CSV
    is parsed: aggregate, scale every feature row, and pair the rows of the
    feature table positionally with the classifier outputs.  The scaler and
    the classifier are the opaque loaded artifacts; per the row-wise
    contracts of spec sections 4.2 and 4.4 they act independently on each
    row, so they are modelled as functions applied to each scaled row, and
    the positional indexing of the code coincides with this map. -/
noncomputable def predict_completion (scale : List ℝ → List ℝ)
    (labelF : List ℝ → Bool) (probF : List ℝ → ℚ) (l : List Row) :
    List PredictionResult :=
  (preprocess_student_data l).map
    (fun p =>
      let srow := scale (featureRow p.2)
      { student_id := p.1,
        completion_probability := round2 (probF srow),
        predicted_completion := labelF srow,
        risk_level := risk_level (probF srow) })

/-- One output row of the difficulty analysis of train_models: columns
    course_id, chapter_id, score (the group mean score), time_spent (the
    group mean time) and difficulty_score; an aggregate of an all-null column
    is none, mirroring NaN. -/
structure DifficultyRecord where
  course_id : String
  chapter_id : ℚ
  score : Option ℚ
  time_spent : Option ℚ
  difficulty_score : Option ℚ
deriving DecidableEq

/-- Lexicographic order on the (course_id, chapter_id) group keys: the
    ascending key order of the pandas groupby over two columns. -/
def keyLE (a b : String × ℚ) : Prop :=
  a.1 < b.1 ∨ (a.1 = b.1 ∧ a.2 ≤ b.2)

instance : DecidableRel keyLE := fun a b =>
  inferInstanceAs (Decidable (a.1 < b.1 ∨ (a.1 = b.1 ∧ a.2 ≤ b.2)))

instance : IsTrans (String × ℚ) keyLE where
  trans a b c hab hbc := by
    rcases hab with h | ⟨he, hle⟩ <;> rcases hbc with h' | ⟨he', hle'⟩
    · exact Or.inl (lt_trans h h')
    · exact Or.inl (he' ▸ h)
    · exact Or.inl (he ▸ h')
    · exact Or.inr ⟨he.trans he', hle.trans hle'⟩

instance : IsTotal (String × ℚ) keyLE where
  total a b := by
    rcases lt_trichotomy a.1 b.1 with h | h | h
    · exact Or.inl (Or.inl h)
    · rcases le_total a.2 b.2 with h2 | h2
      · exact Or.inl (Or.inr ⟨h, h2⟩)
      · exact Or.inr (Or.inr ⟨h.symm, h2⟩)
    · exact Or.inr (Or.inl h)

instance : IsAntisymm (String × ℚ) keyLE where
  antisymm a b hab hba := by
    rcases hab with h | ⟨he, hle⟩
    · rcases hba with h' | ⟨he', _⟩
      · exact absurd h' (lt_asymm h)
      · exact absurd (he' ▸ h) (lt_irrefl _)
    · rcases hba with h' | ⟨_, hle'⟩
      · exact absurd (he ▸ h') (lt_irrefl _)
      · exact Prod.ext he (le_antisymm hle hle')

/-- The group keys of the difficulty groupby, in ascending order: rows whose
    chapter_id is null are dropped, as the pandas groupby drops null keys. -/
def diffKeys (l : List Event) : List (String × ℚ) :=
  ((l.filterMap (fun e => e.chapter_id.map (fun c => (e.course_id, c)))).dedup).insertionSort
    keyLE

/-- The rows of one (course_id, chapter_id) difficulty group. -/
def diffGroup (l : List Event) (k : String × ℚ) : List Event :=
  l.filter (fun e => e.course_id = k.1 ∧ e.chapter_id = some k.2)

/-- The difficulty table before the difficulty_score column is assigned: the
    groupby over course_id and chapter_id with mean score and mean
    time_spent, keys ascending (reset_index keeps this order). -/
def difficultyBase (l : List Event) : List DifficultyRecord :=
  (diffKeys l).map
    (fun k =>
      { course_id := k.1, chapter_id := k.2,
        score := pdMean ((diffGroup l k).filterMap Event.score),
        time_spent := pdMean ((diffGroup l k).filterMap Event.time_spent),
        difficulty_score := none })

/-- The difficulty_score formula of train_models applied to one row, given
    the maximum of the aggregated time_spent column: (100 - avg score) plus
    avg time over max time, times 50; null inputs propagate like NaN. -/
def difficultyFormula (s t m : Option ℚ) : Option ℚ :=
  match s, t, m with
  | some s, some t, some m => some ((100 - s) + t / m * 50)
  | _, _, _ => none

/-- The difficulty analysis of train_models in src/scripts/train_models.py:
    per-group means plus the difficulty_score column computed against the
    maximum mean time over all groups of the same computation. -/
def difficulty_stats (l : List Event) : List DifficultyRecord :=
  let base := difficultyBase l
  let maxT := pdMax (base.filterMap DifficultyRecord.time_spent)
  base.map (fun r => { r with difficulty_score := difficultyFormula r.score r.time_spent maxT })

/-- A column of the parsed CSV: pandas types a column numeric when every
    non-empty cell parses as a number (empty cells become NaN, modelled
    none), and otherwise as an object column of strings, on which the numeric
    aggregations mean and std raise. -/
inductive Col where
  | nums (vals : List (Option ℚ))
  | strs (vals : List String)
deriving DecidableEq

/-- The error taxonomy of the spec for malformed input tables. -/
inductive SchemaError where
  | missingColumn (name : String)
  | nonNumeric (name : String)
deriving DecidableEq

/-- An uploaded table after CSV parsing: named columns.  All columns of one
    parsed table have the same length; the model keeps this as an informal
    invariant of CSV parsing. -/
structure DF where
  cols : List (String × Col)

/-- Column lookup by name. -/
def DF.col (df : DF) (n : String) : Option Col :=
  (df.cols.find? (fun c => c.1 == n)).map (fun c => c.2)

/-- Fetches a required numeric column: a missing column is the pandas
    KeyError of the groupby or agg call, a non-numeric object column is the
    TypeError the numeric aggregations raise; both surface as one error for
    the whole batch.  A non-numeric student_id or chapter_id column also
    fails the batch in the endpoint (at the int conversion and at the scaler
    multiplication respectively); the model surfaces those as schema errors
    at this stage. -/
def getNumCol (df : DF) (n : String) : Except SchemaError (List (Option ℚ)) :=
  match df.col n with
  | none => Except.error (SchemaError.missingColumn n)
  | some (Col.strs _) => Except.error (SchemaError.nonNumeric n)
  | some (Col.nums vs) => Except.ok vs

/-- Builds the parsed rows from the four columns preprocess_student_data
    reads; rows with a null student_id are dropped, as the pandas groupby
    drops null group keys.  course_id is never read on the inference path. -/
def dfRows (sids scores times chaps : List (Option ℚ)) : List Row :=
  (sids.zip (scores.zip (times.zip chaps))).filterMap
    (fun p => p.1.map (fun s =>
      { student_id := s, chapter_id := p.2.2.2, time_spent := p.2.2.1,
        score := p.2.1 }))

/-- The schema-sensitive part of the predict endpoint: the four columns the
    aggregation needs are fetched; any failure aborts the whole batch with
    one error. -/
def parse_student_df (df : DF) : Except SchemaError (List Row) :=
  match getNumCol df ("student_id") with
  | Except.error e => Except.error e
  | Except.ok sids =>
    match getNumCol df ("score") with
    | Except.error e => Except.error e
    | Except.ok scores =>
      match getNumCol df ("time_spent") with
      | Except.error e => Except.error e
      | Except.ok times =>
        match getNumCol df ("chapter_id") with
        | Except.error e => Except.error e
        | Except.ok chaps => Except.ok (dfRows sids scores times chaps)

/-- Aggregation over an uploaded table: parse, then aggregate; a malformed
    table yields a single error for the whole batch and no feature rows. -/
noncomputable def preprocess_df (df : DF) : Except SchemaError (List (ℚ × StudentFeatures)) :=
  (parse_student_df df).map preprocess_student_data

/-- Modelled from the spec: the Scaler Adapter of spec section 4.2 wraps the
    external scikit-learn StandardScaler artifact, whose code is not part of
    this repository; the stored per-column parameters are the means and
    standard deviations fit once at training time. -/
structure ScalerParams where
  means : List ℚ
  stds : List ℚ

/-- Modelled from the spec: transform applies (x - mean) / std column-wise
    using only the stored parameters, and a column whose stored standard
    deviation is 0 transforms to 0 instead of dividing by zero. -/
def transform (ps : ScalerParams) (row : List ℚ) : List ℚ :=
  List.zipWith (fun ms x => if ms.2 = 0 then 0 else (x - ms.1) / ms.2)
    (ps.means.zip ps.stds) row

/-- The group of rows of one student: what the groupby collects for key s. -/
def studentGroup (l : List Row) (s : ℚ) : List Row :=
  l.filter (fun r => r.student_id = s)

/-- Sum of squared deviations from the mean: the numerator of the sample
    variance. -/
def sqDevSum (xs : List ℚ) : ℚ :=
  (xs.map (fun x => (x - xs.sum / xs.length) ^ 2)).sum

/-- A small concrete batch: student 1 has two events, student 2 has one. -/
def sampleRows : List Row :=
  [⟨1, some 1, some 10, some 80⟩, ⟨1, some 2, some 12, some 90⟩,
   ⟨2, some 1, some 5, some 40⟩]

/-- A batch whose students appear out of ascending key order. -/
def sampleRows2 : List Row :=
  [⟨5, some 1, some 10, some 80⟩, ⟨2, some 1, some 4, some 60⟩]

/-- A batch with one student whose score, time and chapter cells are all
    missing. -/
def nullRows : List Row :=
  [⟨1, none, none, none⟩]

/-- A small concrete training batch over one course and two chapters. -/
def sampleEvents : List Event :=
  [⟨1, "C101", some 1, some 10, some 80, 1⟩,
   ⟨1, "C101", some 3, some 30, some 50, 1⟩,
   ⟨2, "C101", some 1, some 12, some 90, 0⟩]

/-- The same training batch with its rows reordered. -/
def sampleEventsPerm : List Event :=
  [⟨2, "C101", some 1, some 12, some 90, 0⟩,
   ⟨1, "C101", some 1, some 10, some 80, 1⟩,
   ⟨1, "C101", some 3, some 30, some 50, 1⟩]

/-- A well-typed uploaded table that has no course_id column at all. -/
def dfNoCourse : DF :=
  ⟨[("student_id", Col.nums [some 1]), ("chapter_id", Col.nums [some 1]),
    ("time_spent", Col.nums [some 10]), ("score", Col.nums [some 50])]⟩

/-- An uploaded table missing the score column. -/
def dfNoScore : DF :=
  ⟨[("student_id", Col.nums [some 1]), ("chapter_id", Col.nums [some 1]),
    ("time_spent", Col.nums [some 10])]⟩

/- Helper lemmas shared by the claim theorems. -/

lemma groupKeys_sorted (ids : List ℚ) : (groupKeys ids).Sorted (· ≤ ·) :=
  List.sorted_insertionSort _ _

lemma groupKeys_nodup (ids : List ℚ) : (groupKeys ids).Nodup :=
  ((List.perm_insertionSort _ _).nodup_iff).mpr (List.nodup_dedup ids)

lemma mem_groupKeys {ids : List ℚ} {a : ℚ} : a ∈ groupKeys ids ↔ a ∈ ids := by
  unfold groupKeys
  rw [(List.perm_insertionSort _ _).mem_iff, List.mem_dedup]

lemma map_fst_preprocess (l : List Row) :
    (preprocess_student_data l).map Prod.fst = groupKeys (l.map Row.student_id) := by
  unfold preprocess_student_data
  rw [List.map_map]
  exact List.map_id' _

lemma mem_preprocess_eq {l : List Row} {s : ℚ} {fv : StudentFeatures}
    (h : (s, fv) ∈ preprocess_student_data l) :
    fv = aggRow (l.filter (fun r => r.student_id = s)) := by
  unfold preprocess_student_data at h
  rcases List.mem_map.mp h with ⟨k, _, hk⟩
  injection hk with h1 h2
  subst h1
  exact h2.symm

lemma filter_toRow (l : List Event) (s : ℚ) :
    (l.map Event.toRow).filter (fun r => r.student_id = s) =
      (l.filter (fun e => e.student_id = s)).map Event.toRow := by
  rw [List.filter_map]
  rfl

lemma ids_toRow (l : List Event) :
    (l.map Event.toRow).map Row.student_id = l.map Event.student_id := by
  rw [List.map_map]
  rfl

/-- C1: the inference-time feature aggregation is exactly the training-time
    feature aggregation: on every event set, after dropping the completed
    target column from the training output, the training feature table and
    the inference feature table agree key for key and vector for vector, and
    hence column for column in the shared fixed field order, which the second
    conjunct states on the ordered numeric rows. -/
theorem train_inference_feature_agreement (l : List Event) :
    ((trainStudentFeatures l).map (fun x => (x.1, x.2.1))) =
      preprocess_student_data (l.map Event.toRow) ∧
    ((trainStudentFeatures l).map (fun x => featureRow x.2.1)) =
      (preprocess_student_data (l.map Event.toRow)).map (fun x => featureRow x.2) := by
  have h1 : ((trainStudentFeatures l).map (fun x => (x.1, x.2.1))) =
      preprocess_student_data (l.map Event.toRow) := by
    unfold trainStudentFeatures preprocess_student_data
    rw [ids_toRow, List.map_map]
    refine List.map_congr_left (fun s _ => ?_)
    rw [filter_toRow]
    unfold aggRow presentScores presentTimes presentChapters
    simp only [Function.comp_def, List.filterMap_map]
    rfl
  refine ⟨h1, ?_⟩
  rw [← h1, List.map_map]
  rfl

/-- C4: for every probability p in [0,1] the risk tier is High exactly when
    p < 0.30, Medium exactly when 0.30 <= p < 0.70 and Low exactly when
    p >= 0.70; in particular p = 0.30 maps to Medium and p = 0.70 maps to
    Low. -/
theorem risk_level_thresholds (p : ℚ) (h0 : 0 ≤ p) (h1 : p ≤ 1) :
    (risk_level p = "High" ↔ p < 3/10) ∧
    (risk_level p = "Medium" ↔ 3/10 ≤ p ∧ p < 7/10) ∧
    (risk_level p = "Low" ↔ 7/10 ≤ p) ∧
    risk_level (3/10) = "Medium" ∧ risk_level (7/10) = "Low" := by
  have hA : risk_level (3/10) = "Medium" := by norm_num [risk_level]
  have hB : risk_level (7/10) = "Low" := by norm_num [risk_level]
  refine ⟨?_, ?_, ?_, hA, hB⟩ <;> unfold risk_level <;> split_ifs with ha hb <;>
      simp <;> try constructor
  all_goals intros; try linarith

/-- Witness for C4 at the boundary probabilities 0.30 and 0.70. -/
theorem risk_level_thresholds_witness :
    risk_level (3/10) = "Medium" ∧ risk_level (7/10) = "Low" :=
  ⟨(risk_level_thresholds (3/10) (by norm_num) (by norm_num)).2.2.2.1,
   (risk_level_thresholds (7/10) (by norm_num) (by norm_num)).2.2.2.2⟩

/-- C6: the scaler transform applies (x - mean) / std column-wise using only
    the stored training-time parameters, and every column whose stored
    standard deviation is 0 transforms to 0 for every input, with no division
    by zero (spec-modelled: the StandardScaler artifact is external to the
    repository, so transform is modelled from spec section 4.2). -/
theorem transform_columnwise (ps : ScalerParams) (row : List ℚ) (i : ℕ)
    (hm : i < ps.means.length) (hs : i < ps.stds.length) (hr : i < row.length) :
    (ps.stds.get ⟨i, hs⟩ = 0 →
      (transform ps row).get ⟨i, by simp [transform]; omega⟩ = 0) ∧
    (ps.stds.get ⟨i, hs⟩ ≠ 0 →
      (transform ps row).get ⟨i, by simp [transform]; omega⟩ =
        (row.get ⟨i, hr⟩ - ps.means.get ⟨i, hm⟩) / ps.stds.get ⟨i, hs⟩) := by
  unfold transform
  simp only [List.get_eq_getElem, List.getElem_zipWith, List.getElem_zip]
  constructor
  · intro h
    rw [if_pos h]
  · intro h
    rw [if_neg h]

/-- Witness for C6: a concrete scaler with one zero-std column and one
    regular column, applied to a concrete row. -/
theorem transform_columnwise_witness :
    (transform ⟨[1, 2], [0, 4]⟩ [5, 6]).get ⟨0, by decide⟩ = 0 ∧
    (transform ⟨[1, 2], [0, 4]⟩ [5, 6]).get ⟨1, by decide⟩ = (6 - 2) / 4 := by
  constructor
  · exact (transform_columnwise ⟨[1, 2], [0, 4]⟩ [5, 6] 0
      (by decide) (by decide) (by decide)).1 (by decide)
  · exact (transform_columnwise ⟨[1, 2], [0, 4]⟩ [5, 6] 1
      (by decide) (by decide) (by decide)).2 (by decide)

lemma sqDevSum_nonneg (xs : List ℚ) : 0 ≤ sqDevSum xs := by
  refine List.sum_nonneg ?_
  intro x hx
  rcases List.mem_map.mp hx with ⟨y, _, hy⟩
  exact hy ▸ sq_nonneg _

lemma pdStd_getD_sq (xs : List ℚ) (h : 2 ≤ xs.length) :
    0 ≤ (pdStd xs).getD 0 ∧
    ((pdStd xs).getD 0) ^ 2 * ((xs.length : ℝ) - 1) = (sqDevSum xs : ℝ) := by
  have hv : pdVar xs = some (sqDevSum xs / ((xs.length : ℚ) - 1)) := by
    unfold pdVar sqDevSum
    rw [if_neg (by omega)]
  have hden : (0 : ℚ) < (xs.length : ℚ) - 1 := by
    have : (2 : ℚ) ≤ (xs.length : ℚ) := by exact_mod_cast h
    linarith
  simp only [pdStd, hv, Option.map_some', Option.getD_some]
  refine ⟨Real.sqrt_nonneg _, ?_⟩
  have harg : (0 : ℚ) ≤ sqDevSum xs / ((xs.length : ℚ) - 1) :=
    div_nonneg (sqDevSum_nonneg xs) hden.le
  rw [Real.sq_sqrt (by exact_mod_cast harg)]
  have hne : ((xs.length : ℝ) - 1) ≠ 0 := by
    have : (0 : ℝ) < (xs.length : ℝ) - 1 := by exact_mod_cast hden
    linarith
  push_cast
  field_simp

lemma pdStd_getD_small (xs : List ℚ) (h : xs.length < 2) : (pdStd xs).getD 0 = 0 := by
  simp only [pdStd, pdVar, if_pos h]
  rfl

/-- C2: every std the aggregation stores is the sample standard deviation
    with the n - 1 denominator: for a student group with at least two
    non-null values the stored std is nonnegative and its square times n - 1
    equals the sum of squared deviations from the group mean, for score and
    for time_spent; and for a student with exactly one event both std fields
    of the feature vector equal 0, never a missing value. -/
theorem std_sample_denominator (l : List Row) (s : ℚ) (fv : StudentFeatures)
    (hmem : (s, fv) ∈ preprocess_student_data l) :
    (2 ≤ (presentScores (studentGroup l s)).length →
      0 ≤ fv.score_std ∧
      fv.score_std ^ 2 * (((presentScores (studentGroup l s)).length : ℝ) - 1) =
        (sqDevSum (presentScores (studentGroup l s)) : ℝ)) ∧
    (2 ≤ (presentTimes (studentGroup l s)).length →
      0 ≤ fv.time_spent_std ∧
      fv.time_spent_std ^ 2 * (((presentTimes (studentGroup l s)).length : ℝ) - 1) =
        (sqDevSum (presentTimes (studentGroup l s)) : ℝ)) ∧
    ((studentGroup l s).length = 1 → fv.score_std = 0 ∧ fv.time_spent_std = 0) := by
  have hfv := mem_preprocess_eq hmem
  subst hfv
  refine ⟨fun h => pdStd_getD_sq _ h, fun h => pdStd_getD_sq _ h, fun h => ⟨?_, ?_⟩⟩
  · exact pdStd_getD_small _
      (lt_of_le_of_lt (List.length_filterMap_le _ _)
        (by unfold studentGroup at h; rw [h]; omega))
  · exact pdStd_getD_small _
      (lt_of_le_of_lt (List.length_filterMap_le _ _)
        (by unfold studentGroup at h; rw [h]; omega))

/-- Witness for C2 on sampleRows: student 1 has two scores, student 2 exactly
    one event. -/
theorem std_sample_denominator_witness :
    0 ≤ (aggRow (studentGroup sampleRows 1)).score_std ∧
    (aggRow (studentGroup sampleRows 1)).score_std ^ 2 *
        (((presentScores (studentGroup sampleRows 1)).length : ℝ) - 1) =
      (sqDevSum (presentScores (studentGroup sampleRows 1)) : ℝ) ∧
    (aggRow (studentGroup sampleRows 2)).score_std = 0 ∧
    (aggRow (studentGroup sampleRows 2)).time_spent_std = 0 := by
  have h1 : ((1 : ℚ), aggRow (studentGroup sampleRows 1)) ∈
      preprocess_student_data sampleRows :=
    List.mem_map_of_mem _ (mem_groupKeys.mpr (by decide))
  have h2 : ((2 : ℚ), aggRow (studentGroup sampleRows 2)) ∈
      preprocess_student_data sampleRows :=
    List.mem_map_of_mem _ (mem_groupKeys.mpr (by decide))
  have t1 := (std_sample_denominator sampleRows 1 _ h1).1 (by decide)
  have t2 := (std_sample_denominator sampleRows 2 _ h2).2.2 (by decide)
  exact ⟨t1.1, t1.2, t2.1, t2.2⟩

/-- C7: the aggregator outputs exactly one feature vector per distinct
    student_id of the batch: the key column is duplicate-free, contains a key
    exactly when some row of the batch carries that student_id, every vector
    is the aggregate of the full row group of its student, and the predict
    endpoint emits exactly one PredictionResult per feature row, hence one
    per distinct student_id. -/
theorem one_vector_per_student (scale : List ℝ → List ℝ) (labelF : List ℝ → Bool)
    (probF : List ℝ → ℚ) (l : List Row) :
    ((preprocess_student_data l).map Prod.fst).Nodup ∧
    (∀ s : ℚ, s ∈ (preprocess_student_data l).map Prod.fst ↔ s ∈ l.map Row.student_id) ∧
    (∀ s fv, (s, fv) ∈ preprocess_student_data l → fv = aggRow (studentGroup l s)) ∧
    (predict_completion scale labelF probF l).map (fun p => p.student_id) =
      (preprocess_student_data l).map Prod.fst := by
  refine ⟨?_, ?_, ?_, ?_⟩
  · rw [map_fst_preprocess]
    exact groupKeys_nodup _
  · intro s
    rw [map_fst_preprocess, mem_groupKeys]
  · intro s fv h
    exact mem_preprocess_eq h
  · unfold predict_completion
    rw [List.map_map]
    rfl

/-- Witness for C7 on sampleRows with a trivial scaler and classifier. -/
theorem one_vector_per_student_witness :
    ((preprocess_student_data sampleRows).map Prod.fst).Nodup ∧
    ((1 : ℚ) ∈ (preprocess_student_data sampleRows).map Prod.fst ↔
      (1 : ℚ) ∈ sampleRows.map Row.student_id) ∧
    aggRow (studentGroup sampleRows 2) = aggRow (studentGroup sampleRows 2) ∧
    (predict_completion (fun r => r) (fun _ => true) (fun _ => 1/2) sampleRows).map
        (fun p => p.student_id) =
      (preprocess_student_data sampleRows).map Prod.fst := by
  have t := one_vector_per_student (fun r => r) (fun _ => true) (fun _ => 1/2) sampleRows
  have hmem : ((2 : ℚ), aggRow (studentGroup sampleRows 2)) ∈
      preprocess_student_data sampleRows :=
    List.mem_map_of_mem _ (mem_groupKeys.mpr (by decide))
  exact ⟨t.1, t.2.1 1, t.2.2.1 2 _ hmem, t.2.2.2⟩

lemma length_predict (scale : List ℝ → List ℝ) (labelF : List ℝ → Bool)
    (probF : List ℝ → ℚ) (l : List Row) :
    (predict_completion scale labelF probF l).length =
      (preprocess_student_data l).length := by
  unfold predict_completion
  rw [List.length_map]

lemma sampleRows2_pred_len :
    0 < (predict_completion (fun r => r) (fun _ => true) (fun _ => 1/2) sampleRows2).length := by
  rw [length_predict]
  unfold preprocess_student_data groupKeys
  rw [List.length_map, (List.perm_insertionSort _ _).length_eq]
  decide

/-- C10: the predict result sequence is ordered by strictly ascending
    student_id regardless of the upload order, because the grouping sorts the
    keys; and the i-th PredictionResult pairs the i-th row of the sorted
    feature table with the classifier label and probability obtained on the
    i-th scaled feature row. -/
theorem results_sorted_and_aligned (scale : List ℝ → List ℝ) (labelF : List ℝ → Bool)
    (probF : List ℝ → ℚ) (l : List Row) :
    ((predict_completion scale labelF probF l).map (fun p => p.student_id)).Sorted (· < ·) ∧
    ∀ i (hi : i < (predict_completion scale labelF probF l).length),
      ∃ hj : i < (preprocess_student_data l).length,
        (predict_completion scale labelF probF l).get ⟨i, hi⟩ =
          { student_id := ((preprocess_student_data l).get ⟨i, hj⟩).1,
            completion_probability :=
              round2 (probF (scale (featureRow ((preprocess_student_data l).get ⟨i, hj⟩).2))),
            predicted_completion :=
              labelF (scale (featureRow ((preprocess_student_data l).get ⟨i, hj⟩).2)),
            risk_level :=
              risk_level (probF (scale (featureRow ((preprocess_student_data l).get ⟨i, hj⟩).2))) } := by
  constructor
  · have hkeys : (predict_completion scale labelF probF l).map (fun p => p.student_id) =
        groupKeys (l.map Row.student_id) := by
      unfold predict_completion
      rw [List.map_map]
      exact map_fst_preprocess l
    rw [hkeys]
    exact (groupKeys_sorted _).lt_of_le (groupKeys_nodup _)
  · intro i hi
    refine ⟨by rw [← length_predict scale labelF probF l]; exact hi, ?_⟩
    unfold predict_completion
    simp only [List.get_eq_getElem, List.getElem_map]

/-- Witness for C10 on the out-of-order batch sampleRows2, with a trivial
    scaler and classifier. -/
theorem results_sorted_and_aligned_witness :
    ((predict_completion (fun r => r) (fun _ => true) (fun _ => 1/2) sampleRows2).map
        (fun p => p.student_id)).Sorted (· < ·) ∧
    ∃ hj : 0 < (preprocess_student_data sampleRows2).length,
      (predict_completion (fun r => r) (fun _ => true) (fun _ => 1/2) sampleRows2).get
          ⟨0, sampleRows2_pred_len⟩ =
        { student_id := ((preprocess_student_data sampleRows2).get ⟨0, hj⟩).1,
          completion_probability := round2 (1/2),
          predicted_completion := true,
          risk_level := risk_level (1/2) } := by
  have t := results_sorted_and_aligned (fun r => r) (fun _ => true) (fun _ => 1/2) sampleRows2
  exact ⟨t.1, t.2 0 sampleRows2_pred_len⟩

/-- C9: the fillna(0) of the aggregation applies to every aggregate column,
    not only the two std columns, and the mean, min, max and sum aggregates
    silently skip missing values: appending a row whose score is missing
    leaves all four score aggregates unchanged, appending a row whose
    time_spent is missing leaves the three time aggregates unchanged, and a
    student whose score (or time, or chapter) cells are all missing gets 0.0
    in the corresponding aggregate fields instead of an error. -/
theorem nan_skip_and_fill (g : List Row) (r : Row) :
    (r.score = none →
      (aggRow (g ++ [r])).score_mean = (aggRow g).score_mean ∧
      (aggRow (g ++ [r])).score_min = (aggRow g).score_min ∧
      (aggRow (g ++ [r])).score_max = (aggRow g).score_max ∧
      (aggRow (g ++ [r])).score_std = (aggRow g).score_std) ∧
    (r.time_spent = none →
      (aggRow (g ++ [r])).time_spent_sum = (aggRow g).time_spent_sum ∧
      (aggRow (g ++ [r])).time_spent_mean = (aggRow g).time_spent_mean ∧
      (aggRow (g ++ [r])).time_spent_std = (aggRow g).time_spent_std) ∧
    (presentScores g = [] →
      (aggRow g).score_mean = 0 ∧ (aggRow g).score_min = 0 ∧
      (aggRow g).score_max = 0 ∧ (aggRow g).score_std = 0) ∧
    (presentTimes g = [] →
      (aggRow g).time_spent_sum = 0 ∧ (aggRow g).time_spent_mean = 0 ∧
      (aggRow g).time_spent_std = 0) ∧
    (presentChapters g = [] → (aggRow g).chapter_id_max = 0) := by
  refine ⟨fun h => ?_, fun h => ?_, fun h => ?_, fun h => ?_, fun h => ?_⟩
  · have hs : presentScores (g ++ [r]) = presentScores g := by
      unfold presentScores
      rw [List.filterMap_append]
      simp [h]
    unfold aggRow
    rw [hs]
    exact ⟨rfl, rfl, rfl, rfl⟩
  · have hs : presentTimes (g ++ [r]) = presentTimes g := by
      unfold presentTimes
      rw [List.filterMap_append]
      simp [h]
    unfold aggRow
    rw [hs]
    exact ⟨rfl, rfl, rfl⟩
  · unfold aggRow
    rw [h]
    simp [pdMean, pdMin, pdMax, pdStd, pdVar]
  · unfold aggRow
    rw [h]
    simp [pdMean, pdMin, pdMax, pdStd, pdVar]
  · unfold aggRow
    rw [h]
    simp [pdMax]

/-- Witness for C9: a student whose cells are all missing aggregates to
    zeros, and appending a row with missing score and time changes no score
    or time aggregate. -/
theorem nan_skip_and_fill_witness :
    (aggRow (nullRows ++ [⟨1, some 2, none, none⟩])).score_mean =
      (aggRow nullRows).score_mean ∧
    (aggRow (nullRows ++ [⟨1, some 2, none, none⟩])).time_spent_sum =
      (aggRow nullRows).time_spent_sum ∧
    (aggRow nullRows).score_mean = 0 ∧ (aggRow nullRows).score_std = 0 ∧
    (aggRow nullRows).time_spent_sum = 0 ∧ (aggRow nullRows).chapter_id_max = 0 := by
  have t := nan_skip_and_fill nullRows ⟨1, some 2, none, none⟩
  exact ⟨(t.1 rfl).1, (t.2.1 rfl).1, (t.2.2.1 rfl).1, (t.2.2.1 rfl).2.2.2,
    (t.2.2.2.1 rfl).1, t.2.2.2.2 rfl⟩

lemma pdMean_perm {xs ys : List ℚ} (h : List.Perm xs ys) : pdMean xs = pdMean ys := by
  unfold pdMean
  rw [h.length_eq, h.sum_eq]

lemma diffKeys_perm {l l2 : List Event} (h : List.Perm l l2) : diffKeys l = diffKeys l2 := by
  unfold diffKeys
  refine List.eq_of_perm_of_sorted ?_ (List.sorted_insertionSort _ _)
    (List.sorted_insertionSort _ _)
  exact ((List.perm_insertionSort _ _).trans ((h.filterMap _).dedup)).trans
    (List.perm_insertionSort _ _).symm

/-- C8: the difficulty scorer is invariant under any reordering of the input
    batch: a permutation of the rows yields the identical list of
    DifficultyRecords, so in particular the same set of records with the same
    avg score, avg time and difficulty_score per (course_id, chapter_id)
    group. -/
theorem difficulty_order_invariant (l l2 : List Event) (h : List.Perm l l2) :
    difficulty_stats l = difficulty_stats l2 := by
  have hbase : difficultyBase l = difficultyBase l2 := by
    unfold difficultyBase
    rw [diffKeys_perm h]
    refine List.map_congr_left fun k _ => ?_
    have hg : List.Perm (diffGroup l k) (diffGroup l2 k) := h.filter _
    rw [pdMean_perm (hg.filterMap Event.score), pdMean_perm (hg.filterMap Event.time_spent)]
  unfold difficulty_stats
  rw [hbase]

/-- Witness for C8: the concrete batch and its reordering score
    identically. -/
theorem difficulty_order_invariant_witness :
    difficulty_stats sampleEvents = difficulty_stats sampleEventsPerm :=
  difficulty_order_invariant sampleEvents sampleEventsPerm (by decide)

lemma foldl_max_spec (xs : List ℚ) (a : ℚ) :
    (xs.foldl max a = a ∨ xs.foldl max a ∈ xs) ∧ a ≤ xs.foldl max a ∧
      ∀ x ∈ xs, x ≤ xs.foldl max a := by
  induction xs generalizing a with
  | nil => exact ⟨Or.inl rfl, le_refl a, by simp⟩
  | cons y ys ih =>
    have h := ih (max a y)
    refine ⟨?_, ?_, ?_⟩
    · rcases h.1 with h1 | h1
      · rcases max_choice a y with hc | hc
        · exact Or.inl (by rw [List.foldl_cons, h1, hc])
        · refine Or.inr ?_
          rw [List.foldl_cons, h1, hc]
          exact List.mem_cons_self y ys
      · exact Or.inr (List.mem_cons_of_mem y h1)
    · exact le_trans (le_max_left a y) h.2.1
    · intro x hx
      rcases List.mem_cons.mp hx with rfl | hx2
      · exact le_trans (le_max_right a x) h.2.1
      · exact h.2.2 x hx2

lemma pdMax_spec {xs : List ℚ} {m : ℚ} (h : pdMax xs = some m) :
    m ∈ xs ∧ ∀ x ∈ xs, x ≤ m := by
  cases xs with
  | nil => simp [pdMax] at h
  | cons y ys =>
    have hm : m = ys.foldl max y := by
      have := h
      simp only [pdMax, Option.some.injEq] at this
      exact this.symm
    subst hm
    have hs := foldl_max_spec ys y
    refine ⟨?_, ?_⟩
    · rcases hs.1 with h1 | h1
      · rw [h1]
        exact List.mem_cons_self y ys
      · exact List.mem_cons_of_mem y h1
    · intro x hx
      rcases List.mem_cons.mp hx with rfl | hx2
      · exact hs.2.1
      · exact hs.2.2 x hx2

lemma pdMax_of_ne_nil {xs : List ℚ} (h : xs ≠ []) : ∃ m, pdMax xs = some m := by
  cases xs with
  | nil => exact absurd rfl h
  | cons y ys => exact ⟨ys.foldl max y, rfl⟩

lemma pdMean_of_ne_nil {xs : List ℚ} (h : xs ≠ []) : ∃ m, pdMean xs = some m := by
  refine ⟨xs.sum / xs.length, ?_⟩
  unfold pdMean
  rw [if_neg (by simpa using h)]

lemma diffKeys_nodup (l : List Event) : (diffKeys l).Nodup :=
  ((List.perm_insertionSort _ _).nodup_iff).mpr (List.nodup_dedup _)

lemma mem_diffKeys {l : List Event} {k : String × ℚ} :
    k ∈ diffKeys l ↔ ∃ e ∈ l, e.course_id = k.1 ∧ e.chapter_id = some k.2 := by
  unfold diffKeys
  rw [(List.perm_insertionSort _ _).mem_iff, List.mem_dedup, List.mem_filterMap]
  constructor
  · rintro ⟨e, he, hf⟩
    rcases Option.map_eq_some'.mp hf with ⟨c2, hc2, rfl⟩
    exact ⟨e, he, rfl, hc2⟩
  · rintro ⟨e, he, h1, h2⟩
    refine ⟨e, he, ?_⟩
    rw [h2, Option.map_some']
    exact congrArg some (Prod.ext h1 rfl)

lemma diff_keys_map (l : List Event) :
    (difficulty_stats l).map (fun r => (r.course_id, r.chapter_id)) = diffKeys l := by
  simp only [difficulty_stats, difficultyBase, List.map_map]
  exact List.map_id' _

lemma diff_time_col (l : List Event) :
    (difficulty_stats l).filterMap DifficultyRecord.time_spent =
      (difficultyBase l).filterMap DifficultyRecord.time_spent := by
  simp only [difficulty_stats]
  rw [List.filterMap_map]
  rfl


lemma difficulty_stats_eq (l : List Event) :
    difficulty_stats l = (diffKeys l).map (fun k =>
      { course_id := k.1, chapter_id := k.2,
        score := pdMean ((diffGroup l k).filterMap Event.score),
        time_spent := pdMean ((diffGroup l k).filterMap Event.time_spent),
        difficulty_score := difficultyFormula
          (pdMean ((diffGroup l k).filterMap Event.score))
          (pdMean ((diffGroup l k).filterMap Event.time_spent))
          (pdMax ((difficultyBase l).filterMap DifficultyRecord.time_spent)) }) := by
  unfold difficulty_stats difficultyBase
  rw [List.map_map]
  rfl

/-- C3: on every non-empty event set (with fully populated score, time and
    chapter cells) the difficulty scorer produces one record per observed
    (course_id, chapter_id) pair, whose avg score and avg time are the means
    of the score and time_spent columns of that group, and whose
    difficulty_score equals (100 - avg score) plus avg time divided by the
    maximum avg time over all groups of the same computation, times 50. -/
theorem difficulty_scorer_correct (l : List Event) (hne : l ≠ [])
    (hall : ∀ e ∈ l, e.score ≠ none ∧ e.time_spent ≠ none ∧ e.chapter_id ≠ none) :
    difficulty_stats l ≠ [] ∧
    ((difficulty_stats l).map (fun r => (r.course_id, r.chapter_id))).Nodup ∧
    (∀ c ch, (c, ch) ∈ (difficulty_stats l).map (fun r => (r.course_id, r.chapter_id)) ↔
      ∃ e ∈ l, e.course_id = c ∧ e.chapter_id = some ch) ∧
    (∀ r ∈ difficulty_stats l,
      r.score = pdMean ((diffGroup l (r.course_id, r.chapter_id)).filterMap Event.score) ∧
      r.time_spent =
        pdMean ((diffGroup l (r.course_id, r.chapter_id)).filterMap Event.time_spent) ∧
      ∃ s t m, r.score = some s ∧ r.time_spent = some t ∧
        m ∈ (difficulty_stats l).filterMap DifficultyRecord.time_spent ∧
        (∀ t2 ∈ (difficulty_stats l).filterMap DifficultyRecord.time_spent, t2 ≤ m) ∧
        r.difficulty_score = some ((100 - s) + t / m * 50)) := by
  refine ⟨?_, ?_, ?_, ?_⟩
  · obtain ⟨e, he⟩ := List.exists_mem_of_ne_nil l hne
    obtain ⟨ch, hch⟩ := Option.ne_none_iff_exists'.mp ((hall e he).2.2)
    have hk : (e.course_id, ch) ∈ diffKeys l := mem_diffKeys.mpr ⟨e, he, rfl, hch⟩
    intro heq
    have h0 : diffKeys l = [] := by
      rw [← diff_keys_map, heq]
      rfl
    rw [h0] at hk
    exact (List.not_mem_nil _) hk
  · rw [diff_keys_map]
    exact diffKeys_nodup l
  · intro c ch
    rw [diff_keys_map]
    exact mem_diffKeys
  · intro r hr
    rw [difficulty_stats_eq] at hr
    obtain ⟨k, hk, rfl⟩ := List.mem_map.mp hr
    obtain ⟨e, he, he1, he2⟩ := mem_diffKeys.mp hk
    have hegrp : e ∈ diffGroup l k := by
      unfold diffGroup
      rw [List.mem_filter]
      exact ⟨he, by simp [he1, he2]⟩
    obtain ⟨sv, hsv⟩ := Option.ne_none_iff_exists'.mp (hall e he).1
    obtain ⟨tv, htv⟩ := Option.ne_none_iff_exists'.mp (hall e he).2.1
    have hscol : (diffGroup l k).filterMap Event.score ≠ [] :=
      List.ne_nil_of_mem (List.mem_filterMap.mpr ⟨e, hegrp, hsv⟩)
    have htcol : (diffGroup l k).filterMap Event.time_spent ≠ [] :=
      List.ne_nil_of_mem (List.mem_filterMap.mpr ⟨e, hegrp, htv⟩)
    obtain ⟨s, hs⟩ := pdMean_of_ne_nil hscol
    obtain ⟨t, ht⟩ := pdMean_of_ne_nil htcol
    have hbasemem : _ ∈ difficultyBase l := List.mem_map_of_mem _ hk
    have htmem : t ∈ (difficultyBase l).filterMap DifficultyRecord.time_spent :=
      List.mem_filterMap.mpr ⟨_, hbasemem, ht⟩
    obtain ⟨m, hm⟩ := pdMax_of_ne_nil (List.ne_nil_of_mem htmem)
    have hmspec := pdMax_spec hm
    refine ⟨rfl, rfl, s, t, m, hs, ht, ?_, ?_, ?_⟩
    · rw [diff_time_col]
      exact hmspec.1
    · intro t2 ht2
      rw [diff_time_col] at ht2
      exact hmspec.2 t2 ht2
    · show difficultyFormula (pdMean ((diffGroup l k).filterMap Event.score))
        (pdMean ((diffGroup l k).filterMap Event.time_spent))
        (pdMax ((difficultyBase l).filterMap DifficultyRecord.time_spent)) = _
      rw [hs, ht, hm]
      rfl

/-- Witness for C3 on the concrete batch sampleEvents. -/
theorem difficulty_scorer_correct_witness :
    difficulty_stats sampleEvents ≠ [] ∧
    ((difficulty_stats sampleEvents).map (fun r => (r.course_id, r.chapter_id))).Nodup ∧
    (("C101", (1 : ℚ)) ∈
        (difficulty_stats sampleEvents).map (fun r => (r.course_id, r.chapter_id)) ↔
      ∃ e ∈ sampleEvents, e.course_id = "C101" ∧ e.chapter_id = some 1) := by
  have t := difficulty_scorer_correct sampleEvents (by decide) (by decide)
  exact ⟨t.1, t.2.1, t.2.2.1 ("C101") 1⟩

lemma getNumCol_ok {df : DF} {n : String} {vs : List (Option ℚ)}
    (h : getNumCol df n = Except.ok vs) : df.col n = some (Col.nums vs) := by
  unfold getNumCol at h
  cases hc : df.col n with
  | none =>
    rw [hc] at h
    exact absurd h (by simp)
  | some c =>
    cases c with
    | strs ws =>
      rw [hc] at h
      exact absurd h (by simp)
    | nums ws =>
      rw [hc] at h
      simp only [Except.ok.injEq] at h
      rw [h]

/-- C5 counterexample: the claim lists course_id among the columns whose
    absence must fail the batch, but the inference aggregation never reads
    course_id: a table without it is processed successfully. -/
theorem schema_error_counterexample :
    DF.col dfNoCourse ("course_id") = none ∧
    (preprocess_df dfNoCourse).isOk = true :=
  ⟨rfl, rfl⟩

/-- C5 amended: aggregation of an uploaded table fails with a SchemaError
    whenever one of the four columns it reads (student_id, chapter_id,
    time_spent, score) is absent, or the score or time_spent column is
    non-numeric; the whole batch fails with a single error and no feature
    rows are produced. -/
theorem schema_error_amended (df : DF)
    (h : DF.col df ("student_id") = none ∨ DF.col df ("chapter_id") = none ∨
      DF.col df ("time_spent") = none ∨ DF.col df ("score") = none ∨
      (∃ vs, DF.col df ("score") = some (Col.strs vs)) ∨
      (∃ vs, DF.col df ("time_spent") = some (Col.strs vs))) :
    ∃ e, preprocess_df df = Except.error e := by
  rcases h1 : getNumCol df ("student_id") with e1 | sids
  · refine ⟨e1, ?_⟩
    unfold preprocess_df parse_student_df
    rw [h1]
    rfl
  rcases h2 : getNumCol df ("score") with e2 | scores
  · refine ⟨e2, ?_⟩
    unfold preprocess_df parse_student_df
    rw [h1, h2]
    rfl
  rcases h3 : getNumCol df ("time_spent") with e3 | times
  · refine ⟨e3, ?_⟩
    unfold preprocess_df parse_student_df
    rw [h1, h2, h3]
    rfl
  rcases h4 : getNumCol df ("chapter_id") with e4 | chaps
  · refine ⟨e4, ?_⟩
    unfold preprocess_df parse_student_df
    rw [h1, h2, h3, h4]
    rfl
  exfalso
  have c1 := getNumCol_ok h1
  have c2 := getNumCol_ok h2
  have c3 := getNumCol_ok h3
  have c4 := getNumCol_ok h4
  rcases h with hc | hc | hc | hc | ⟨vs, hc⟩ | ⟨vs, hc⟩
  · rw [hc] at c1
    exact Option.noConfusion c1
  · rw [hc] at c4
    exact Option.noConfusion c4
  · rw [hc] at c3
    exact Option.noConfusion c3
  · rw [hc] at c2
    exact Option.noConfusion c2
  · rw [hc] at c2
    simp at c2
  · rw [hc] at c3
    simp at c3

/-- Witness for the amended C5: a table without a score column fails as a
    whole. -/
theorem schema_error_amended_witness :
    ∃ e, preprocess_df dfNoScore = Except.error e :=
  schema_error_amended dfNoScore
    (Or.inr (Or.inr (Or.inr (Or.inl rfl))))
